import Mathlib

/-!
Shallow embedding of the shift-schedule extraction pipeline of `agenda-spv`
(`src/App.svelte` and `src/icalHelper.ts`), together with theorems checking the
natural-language specification against it.

Spreadsheet cells are modelled as an optional value (string or number) plus the
optional fill colour / fill theme attributes that the source reads from
`cell.fill?.fgColor`.  JavaScript truthiness, string coercion and the
`x || null` idiom are modelled explicitly.
-/

namespace AgendaSPV

/-- A spreadsheet cell value as the source consumes it: a string or a number
(the source only ever calls `toString()` on it and tests truthiness). -/
inductive CellValue where
  | vStr (s : String)
  | vNum (n : Int)
deriving DecidableEq, Repr

/-- JavaScript `value.toString()` for the modelled cell values. -/
def jsToString : CellValue → String
  | .vStr s => s
  | .vNum n => toString n

/-- JavaScript truthiness of a cell value: the empty string and the number 0
are falsy, everything else is truthy. -/
def jsTruthyVal : CellValue → Bool
  | .vStr s => s ≠ ""
  | .vNum n => n ≠ 0

/-- The coercion `value ? value.toString() : ""` from `parseSheet`
(`App.svelte` line 75): absent and falsy values become the empty string,
truthy values their display string. -/
def jsCoerce : Option CellValue → String
  | some v => if jsTruthyVal v then jsToString v else ""
  | none => ""

/-- The idiom `x || null` on an optional string (`App.svelte` line 81):
an absent or empty (falsy) string becomes `none`. -/
def jsOrNullStr : Option String → Option String
  | some s => if s = "" then none else some s
  | none => none

/-- The idiom `x || null` on an optional number (`App.svelte` line 82):
an absent or zero (falsy) number becomes `none`. -/
def jsOrNullInt : Option Int → Option Int
  | some n => if n = 0 then none else some n
  | none => none

/-- The style attributes `determineServiceType` receives:
`{ color: string | null, color_theme: number | null }`. -/
structure CellStyle where
  color : Option String
  theme : Option Int
deriving DecidableEq, Repr

/-- `determineServiceType` (`App.svelte` lines 108-116): the colour sentinel
`FF00B0F0` gives `12H Jour`, otherwise theme 9 gives `12H Nuit`, otherwise
`24H`. -/
def determineServiceType (cellData : CellStyle) : String :=
  if cellData.color = some "FF00B0F0" then "12H Jour"
  else if cellData.theme = some 9 then "12H Nuit"
  else "24H"

/-- A spreadsheet cell: optional value plus the optional fill colour /
theme attributes (absence of `fill` or `fgColor` is folded into `none`). -/
structure Cell where
  value : Option CellValue
  color : Option String
  theme : Option Int
deriving DecidableEq, Repr

/-- The cell an out-of-range `getCell` returns: no value, no fill. -/
def emptyCell : Cell := ⟨none, none, none⟩

/-- A spreadsheet row; `cells[i]` is the cell of column `i + 1`. -/
structure Row where
  cells : List Cell
deriving DecidableEq, Repr

/-- `row.getCell(col)` for a 1-based column number. -/
def jsGetCell (r : Row) (col : Nat) : Cell :=
  r.cells.getD (col - 1) emptyCell

/-- `row.values.slice(1).map(value => value ? value.toString() : "")`
(`App.svelte` line 75): `row.values` is 1-indexed with a blank slot at
index 0, so after `slice(1)` entry `i` is the coerced value of column
`i + 1`. -/
def rowValuesJS (r : Row) : List String :=
  r.cells.map (fun c => jsCoerce c.value)

/-- The per-cell record `parseSheet` builds for each extra column
(`App.svelte` lines 84-89). -/
structure ExtraCellData where
  value : String
  color : Option String
  theme : Option Int
  serviceType : String
deriving DecidableEq, Repr

/-- The record `parseSheet` pushes per qualifying row
(`App.svelte` lines 93-97). -/
structure EventData where
  date : String
  equipe : String
  extraData : List ExtraCellData
deriving DecidableEq, Repr

/-- `rowValues.slice(3).map((value, index) => ...)` with
`cell = row.getCell(index + 4)` (`App.svelte` lines 79-90): entry `i` pairs
the coerced value of column `i + 4` with the fill attributes of the same
column. -/
def rowExtraData (r : Row) : List ExtraCellData :=
  (List.range ((rowValuesJS r).drop 3).length).map (fun index =>
    let value := ((rowValuesJS r).drop 3).getD index ""
    let cell := jsGetCell r (index + 4)
    let color := jsOrNullStr cell.color
    let theme := jsOrNullInt cell.theme
    { value := value, color := color, theme := theme,
      serviceType := determineServiceType ⟨color, theme⟩ })

/-- The body of the `eachRow` callback in `parseSheet`
(`App.svelte` lines 74-99): `date = rowValues[1]`, `equipe = rowValues[2]`,
and a record is pushed only when `date && equipe` is truthy. -/
def rowToEvent (r : Row) : Option EventData :=
  let rowValues := rowValuesJS r
  let date := rowValues.getD 1 ""
  let equipe := rowValues.getD 2 ""
  if date ≠ "" ∧ equipe ≠ "" then
    some { date := date, equipe := equipe, extraData := rowExtraData r }
  else
    none

/-- `parseSheet` (`App.svelte` lines 71-101) over the rows `eachRow`
visits, in order.  (`eachRow` skips rows without any value; such rows coerce
to all-empty `rowValues` and are dropped by the `date && equipe` guard
anyway, so visiting every row is observationally the same.) -/
def parseSheet (rows : List Row) : List EventData :=
  rows.filterMap rowToEvent

/-- A worksheet, as the functions under study access it: an ordered list of
rows.  `worksheet.columns` is modelled as the columns `1 .. maxColCount`
cutting across these rows. -/
structure Worksheet where
  rows : List Row
deriving DecidableEq, Repr

/-- `worksheet.getRow(i)` for a 1-based row number. -/
def wsGetRow (ws : Worksheet) (i : Nat) : Row :=
  ws.rows.getD (i - 1) ⟨[]⟩

/-- The number of columns of the sheet (length of the widest row). -/
def maxColCount (ws : Worksheet) : Nat :=
  (ws.rows.map (fun r => r.cells.length)).foldr max 0

/-- The cells of 1-based column `j`, one per row, top to bottom (this is
what `column.eachCell` iterates; empty positions surface as `emptyCell`
and are discarded by the `cell.value` truthiness guard in the source). -/
def columnCells (ws : Worksheet) (j : Nat) : List Cell :=
  ws.rows.map (fun r => jsGetCell r j)

/-- `/\d/.test(s)`: whether the string contains an ASCII digit. -/
def hasDigit (s : String) : Bool :=
  s.data.any Char.isDigit

/-- JavaScript `s.trim()` modelled on the character list: leading and
trailing whitespace removed. -/
def jsTrim (s : String) : String :=
  String.mk (((s.data.dropWhile (fun c => c.isWhitespace)).reverse.dropWhile
    (fun c => c.isWhitespace)).reverse)

/-- The header guard `header && header !== 'DESIDERATA'`
(`App.svelte` line 135): the header cell value must be truthy and differ
from the literal string. -/
def headerOk : Option CellValue → Bool
  | some v => jsTruthyVal v && !(v = CellValue.vStr "DESIDERATA" : Bool)
  | none => false

/-- The `eachCell` body of `extractUniqueNames` (`App.svelte` lines
136-147) for one column: keep the display string of each truthy-valued cell
whose style classifies as `24H`, contains no digit and is non-empty after
trimming. -/
def columnNames (ws : Worksheet) (j : Nat) : List String :=
  (columnCells ws j).filterMap (fun cell =>
    match cell.value with
    | some v =>
        if jsTruthyVal v then
          let cellColor := jsOrNullStr cell.color
          let cellTheme := jsOrNullInt cell.theme
          let cellValue := jsToString v
          let serviceType := determineServiceType ⟨cellColor, cellTheme⟩
          if serviceType = "24H" && !hasDigit cellValue &&
              !(jsTrim cellValue = "" : Bool) then
            some cellValue
          else none
        else none
    | none => none)

/-- The header row `extractUniqueNames` uses (`App.svelte` lines 125-130):
row 1, or row 2 when every slot of row 1 is null or undefined. -/
def headerRowOf (ws : Worksheet) : Row :=
  if (wsGetRow ws 1).cells.all (fun c => c.value = none) then wsGetRow ws 2
  else wsGetRow ws 1

/-- All candidate names in visit order: `worksheet.columns.slice(3)` walks
the columns `4 .. maxColCount`; a column contributes only when its header
cell (`headerRow.getCell(index + 4)`) passes the guard. -/
def collectNames (ws : Worksheet) : List String :=
  ((List.range (maxColCount ws - 3)).map (fun i => i + 4)).flatMap (fun j =>
    if headerOk (jsGetCell (headerRowOf ws) j).value then columnNames ws j
    else [])

/-- `extractUniqueNames` (`App.svelte` lines 122-153): collect the
candidates, deduplicate them (the `Set`), and sort with the locale
comparator `(a, b) => a.localeCompare(b)`, modelled as an abstract total
comparator `le`. -/
def extractUniqueNames (le : String → String → Bool) (ws : Worksheet) :
    List String :=
  ((collectNames ws).dedup).mergeSort le

/-- JavaScript `s.toUpperCase()` restricted to the ASCII case mapping. -/
def jsUpper (s : String) : String :=
  String.mk (s.data.map Char.toUpper)

/-- The normalization `s.toUpperCase().trim()` both filter functions apply
before comparing (`App.svelte` lines 162 and 178). -/
def normName (s : String) : String :=
  jsTrim (jsUpper s)

/-- The predicate of `allEvents.filter` in `filterEvents`
(`App.svelte` lines 160-164): some extra cell has a truthy value whose
normalization equals the normalized selected name. -/
def filterMatch (selectedName : String) (e : EventData) : Bool :=
  e.extraData.any (fun cellData =>
    cellData.value ≠ "" && (normName cellData.value = normName selectedName : Bool))

/-- `filterEvents` (`App.svelte` lines 158-169): with a truthy selected
name, filter; with a null or empty selected name, the result is `[]`. -/
def filterEvents (allEvents : List EventData) (selectedName : Option String) :
    List EventData :=
  match selectedName with
  | some n => if n ≠ "" then allEvents.filter (filterMatch n) else []
  | none => []

/-- `getServiceTypeForSelectedName` (`App.svelte` lines 176-181): the
`serviceType` of the first extra cell whose normalized value equals the
normalized selected name (with a null selected name the comparison against
`undefined` is always false), else null.  Unlike `filterEvents`, no
truthiness guard is applied to the cell value. -/
def getServiceTypeForSelectedName (event : EventData)
    (selectedName : Option String) : Option String :=
  let matchingCell := event.extraData.find? (fun cell =>
    match selectedName with
    | some n => (normName cell.value = normName n : Bool)
    | none => false)
  matchingCell.map (fun c => c.serviceType)

/-- The enrichment step of `generateICal` (`App.svelte` line 204):
`getServiceTypeForSelectedName(event) || 'Inconnu'`. -/
def enrichedServiceType (event : EventData) (selectedName : Option String) :
    String :=
  match getServiceTypeForSelectedName event selectedName with
  | some s => if s = "" then "Inconnu" else s
  | none => "Inconnu"

/-! ## Calendar dates and the schedule time resolver (`icalHelper.ts`) -/

/-- A local calendar date with 1-based month, as held by a JavaScript
`Date` at local midnight. -/
structure CalDate where
  year : Nat
  month : Nat
  day : Nat
deriving DecidableEq, Repr

/-- Gregorian leap-year rule, as used by the JavaScript `Date` object. -/
def isLeapYear (y : Nat) : Bool :=
  (y % 4 = 0 && !(y % 100 = 0 : Bool)) || (y % 400 = 0 : Bool)

/-- Number of days of month `m` (1-based) of year `y`. -/
def daysInMonth (y m : Nat) : Nat :=
  match m with
  | 1 => 31
  | 2 => if isLeapYear y then 29 else 28
  | 3 => 31
  | 4 => 30
  | 5 => 31
  | 6 => 30
  | 7 => 31
  | 8 => 31
  | 9 => 30
  | 10 => 31
  | 11 => 30
  | 12 => 31
  | _ => 30

/-- A well-formed calendar date (year at least 1, month and day in range). -/
def validDate (d : CalDate) : Prop :=
  1 ≤ d.year ∧ 1 ≤ d.month ∧ d.month ≤ 12 ∧ 1 ≤ d.day ∧
    d.day ≤ daysInMonth d.year d.month

instance (d : CalDate) : Decidable (validDate d) := by
  unfold validDate; infer_instance

/-- `end.setDate(end.getDate() + 1)` on a well-formed date: the next
calendar day, rolling over month and year ends. -/
def nextDay (d : CalDate) : CalDate :=
  if d.day < daysInMonth d.year d.month then ⟨d.year, d.month, d.day + 1⟩
  else if d.month < 12 then ⟨d.year, d.month + 1, 1⟩
  else ⟨d.year + 1, 1, 1⟩

/-- Leap years in the interval `[1, y]`. -/
def leapsUpTo (y : Nat) : Nat :=
  y / 4 - y / 100 + y / 400

/-- Days of year `y` strictly before month `m` (1-based). -/
def daysBeforeMonth (y m : Nat) : Nat :=
  let leapExtra := if isLeapYear y then 1 else 0
  match m with
  | 1 => 0
  | 2 => 31
  | 3 => 59 + leapExtra
  | 4 => 90 + leapExtra
  | 5 => 120 + leapExtra
  | 6 => 151 + leapExtra
  | 7 => 181 + leapExtra
  | 8 => 212 + leapExtra
  | 9 => 243 + leapExtra
  | 10 => 273 + leapExtra
  | 11 => 304 + leapExtra
  | 12 => 334 + leapExtra
  | _ => 0

/-- Ordinal day number (rata die): days elapsed up to and including `d`,
counting from day 1 = January 1 of year 1.  Used to state, independently of
`nextDay`, that one date is exactly the day after another. -/
def toOrdinal (d : CalDate) : Nat :=
  365 * (d.year - 1) + leapsUpTo (d.year - 1) +
    daysBeforeMonth d.year d.month + d.day

/-- `new Date(year, monthIndex, day)` for a 0-based month index and a day
that may exceed the month length: JavaScript `MakeDay` normalizes by
offsetting `day - 1` days from the first of the month. -/
def jsMakeDate (year monthIndex day : Nat) : CalDate :=
  Nat.iterate nextDay (day - 1) ⟨year, monthIndex + 1, 1⟩

/-- The month names produced by `Intl.DateTimeFormat("fr-FR", { month:
"long" })`. -/
def frenchMonthNames : List String :=
  ["janvier", "février", "mars", "avril", "mai", "juin", "juillet",
   "août", "septembre", "octobre", "novembre", "décembre"]

/-- French month name of a 1-based month number. -/
def frenchMonthName (m : Nat) : String :=
  frenchMonthNames.getD (m - 1) ""

/-- The three-letter month keywords of the host date-string parser. -/
def monthKeywords : List String :=
  ["jan", "feb", "mar", "apr", "may", "jun", "jul", "aug", "sep", "oct",
   "nov", "dec"]

/-- ASCII lower-casing of a character list. -/
def lowerChars (cs : List Char) : List Char :=
  cs.map Char.toLower

/-- Modelled from the spec: the locale-dependent textual date forms are
decomposed by the host (`new Date(string)` / `Date.parse`), which is not
part of this repository.  A word of at least three characters names a month
when its first three characters, lower-cased, equal one of the English
three-letter month keywords (so the French `mars` resolves like `March`);
the result is the 0-based month index. -/
def jsMonthOfToken (w : String) : Option Nat :=
  if w.data.length < 3 then none
  else monthKeywords.findIdx? (fun k => (lowerChars w.data).take 3 = k.data)

/-- A token made only of ASCII digits, read as a natural number. -/
def digitsToNat? (cs : List Char) : Option Nat :=
  if cs ≠ [] ∧ cs.all Char.isDigit then
    some (cs.foldl (fun n c => 10 * n + (c.toNat - 48)) 0)
  else none

/-- `Number(s)` on the decimal strings this pipeline produces. -/
def jsNumber? (s : String) : Option Nat :=
  digitsToNat? s.data

/-- Split a string into its space-separated words. -/
def wordsAux (cs : List Char) (cur : List Char) : List String :=
  match cs with
  | [] => if cur = [] then [] else [String.mk cur.reverse]
  | c :: rest =>
      if c = ' ' then
        if cur = [] then wordsAux rest []
        else String.mk cur.reverse :: wordsAux rest []
      else wordsAux rest (c :: cur)

/-- The words of a string. -/
def jsWords (s : String) : List String :=
  wordsAux s.data []

/-- Modelled from the spec: the host date-string parser (`new Date(string)`
and `Date.parse`), which is not part of this repository, restricted to the
`day monthname year` shapes this pipeline feeds it.  A numeric word of at
most 31 is the day, a month keyword word is the month, a larger numeric
word is the year (defaulting to 2001 when absent, as the host does for
`monthname day` inputs); parsing fails without both a day and a month.
Returns `(year, 0-based month index, day)`. -/
def jsParseDateString (s : String) : Option (Nat × Nat × Nat) :=
  let toks := jsWords s
  let day? := toks.findSome? (fun t =>
    match jsNumber? t with
    | some n => if 1 ≤ n ∧ n ≤ 31 then some n else none
    | none => none)
  let month? := toks.findSome? jsMonthOfToken
  let year? := toks.findSome? (fun t =>
    match jsNumber? t with
    | some n => if 32 ≤ n then some n else none
    | none => none)
  match month?, day? with
  | some m, some d => some (year?.getD 2001, m, d)
  | _, _ => none

/-- `Intl.DateTimeFormat("fr-FR", { day: "numeric", month: "long", year:
"numeric" }).formatToParts(date)`: the day, French month name, and year of
the date, as strings. -/
def intlFrFormatParts (d : CalDate) : String × String × String :=
  (toString d.day, frenchMonthName d.month, toString d.year)

/-- The string branch of `getEventTimes` (`icalHelper.ts` lines 17-34):
parse the incoming string with the host parser (a failure there makes the
formatter raise on the invalid date, surfacing as the invalid-date
failure), format the result to French parts, then reconstruct `day` with
`Number`, `month` with `Date.parse(monthName + " 1")`, `year` with
`Number`; if any is not a number the invalid-date error is raised,
otherwise the date is rebuilt with `new Date(year, month, day)`. -/
def frenchLocaleDecompose (s : String) : Option CalDate :=
  match jsParseDateString s with
  | none => none
  | some (y, m0, d0) =>
      let date := jsMakeDate y m0 d0
      let parts := intlFrFormatParts date
      let day? := jsNumber? parts.1
      let month? := (jsParseDateString (parts.2.1 ++ " 1")).map
        (fun p => p.2.1)
      let year? := jsNumber? parts.2.2
      match day?, month?, year? with
      | some day, some month, some year => some (jsMakeDate year month day)
      | _, _, _ => none

/-- The `dateValue: string | Date` argument of `getEventTimes`. -/
inductive DateInput where
  | str (s : String)
  | date (d : CalDate)
deriving DecidableEq, Repr

/-- A local date-time at minute precision. -/
structure EventDateTime where
  date : CalDate
  hour : Nat
  minute : Nat
deriving DecidableEq, Repr

/-- The `{ start, end }` pair `getEventTimes` returns. -/
structure EventWindow where
  start : EventDateTime
  stop : EventDateTime
deriving DecidableEq, Repr

/-- The failures of `getEventTimes`: the invalid-date error (`Format de
date invalide dans la chaine`, including the formatter raising on an
unparseable string) and the unrecognized-service-type error (`Type de
service non reconnu`). -/
inductive ScheduleError where
  | invalidDate
  | unrecognizedService
deriving DecidableEq, Repr

/-- `getEventTimes` (`icalHelper.ts` lines 11-64): decompose a string date
(a `Date` input is used as is), then build the window by service type:
`12H Jour` is 07:30 to 19:30 the same day, `12H Nuit` is 19:30 to 07:30
the next day, `24H` is 07:30 to 07:30 the next day; any other service type
raises. -/
def getEventTimes (dateValue : DateInput) (serviceType : String) :
    Except ScheduleError EventWindow :=
  match (match dateValue with
         | .str s =>
             match frenchLocaleDecompose s with
             | some d => Except.ok d
             | none => Except.error ScheduleError.invalidDate
         | .date d => Except.ok d) with
  | .error e => .error e
  | .ok d =>
      if serviceType = "12H Jour" then
        .ok ⟨⟨d, 7, 30⟩, ⟨d, 19, 30⟩⟩
      else if serviceType = "12H Nuit" then
        .ok ⟨⟨d, 19, 30⟩, ⟨nextDay d, 7, 30⟩⟩
      else if serviceType = "24H" then
        .ok ⟨⟨d, 7, 30⟩, ⟨nextDay d, 7, 30⟩⟩
      else .error ScheduleError.unrecognizedService

/-! ## Derived and specification-side definitions, and concrete samples -/

/-- The extra-cell record determined by the cell of one extra column
(the shape every entry of `rowExtraData` has). -/
def extraOfCell (c : Cell) : ExtraCellData :=
  let color := jsOrNullStr c.color
  let theme := jsOrNullInt c.theme
  { value := jsCoerce c.value, color := color, theme := theme,
    serviceType := determineServiceType ⟨color, theme⟩ }

/-- The qualification test of `rowToEvent`: the coerced values of columns
2 and 3 are both non-empty. -/
def qualifiesRow (r : Row) : Bool :=
  jsCoerce (jsGetCell r 2).value ≠ "" && jsCoerce (jsGetCell r 3).value ≠ ""

/-- The event a qualifying row yields. -/
def mkEventOfRow (r : Row) : EventData :=
  { date := jsCoerce (jsGetCell r 2).value,
    equipe := jsCoerce (jsGetCell r 3).value,
    extraData := rowExtraData r }

/-- The value coercion as the claim words it: present values become their
display string, absent values the empty string.  (Specification-side
definition, to be compared with `jsCoerce`.) -/
def specCoerce : Option CellValue → String
  | some v => jsToString v
  | none => ""

/-- Lexicographic order on character lists by code point, a concrete total
transitive comparator used to instantiate the abstract locale comparator. -/
def lexLeChars : List Char → List Char → Bool
  | [], _ => true
  | _ :: _, [] => false
  | a :: as, b :: bs =>
      if a.toNat < b.toNat then true
      else if b.toNat < a.toNat then false
      else lexLeChars as bs

/-- Lexicographic order on strings by code point. -/
def lexLe (a b : String) : Bool :=
  lexLeChars a.data b.data

/-- A cell holding a string value and no fill data. -/
def cellStr (s : String) : Cell := ⟨some (CellValue.vStr s), none, none⟩

/-- Sample row whose four columns hold the distinct strings X, Y, Z, W. -/
def sampleRowXYZW : Row := ⟨[cellStr "X", cellStr "Y", cellStr "Z", cellStr "W"]⟩

/-- Sample row whose column 2 holds the number 0 and whose column 3 holds a
non-empty string. -/
def sampleRowZeroDate : Row :=
  ⟨[cellStr "L", ⟨some (CellValue.vNum 0), none, none⟩, cellStr "A"]⟩

/-- Sample event with a single extra cell whose value is the empty string. -/
def sampleEmptyCellEvent : EventData :=
  ⟨"d", "t", [⟨"", none, none, "24H"⟩]⟩

/-- Sample two-row worksheet: a header row (with a name column and a
DESIDERATA column) above one data row. -/
def sampleSheet : Worksheet :=
  ⟨[⟨[cellStr "j", cellStr "date", cellStr "eq", cellStr "NOMS",
      cellStr "DESIDERATA"]⟩,
    ⟨[cellStr "lu", cellStr "x", cellStr "EQ1", cellStr "Dupont",
      cellStr "Martin"]⟩]⟩

/-- Sample rows producing one event that mentions Dupont in an extra cell. -/
def sampleRows : List Row :=
  [⟨[cellStr "lu", cellStr "10 avril 2025", cellStr "EQ1", cellStr "Dupont"]⟩]

/-! ## Helper lemmas -/

lemma isLeapYear_iff (y : Nat) :
    isLeapYear y = true ↔ ((y % 4 = 0 ∧ y % 100 ≠ 0) ∨ y % 400 = 0) := by
  simp [isLeapYear, Bool.or_eq_true, Bool.and_eq_true, decide_eq_true_eq]

lemma leapsUpTo_succ (y : Nat) :
    leapsUpTo (y + 1) = leapsUpTo y + (if isLeapYear (y + 1) then 1 else 0) := by
  have h4 : (y + 1) / 4 = y / 4 + if 4 ∣ y + 1 then 1 else 0 := Nat.succ_div y 4
  have h100 : (y + 1) / 100 = y / 100 + if 100 ∣ y + 1 then 1 else 0 :=
    Nat.succ_div y 100
  have h400 : (y + 1) / 400 = y / 400 + if 400 ∣ y + 1 then 1 else 0 :=
    Nat.succ_div y 400
  have hle : y / 100 ≤ y / 4 := Nat.div_le_div_left (by norm_num) (by norm_num)
  have hlf : isLeapYear (y + 1) = true ↔
      (((y + 1) % 4 = 0 ∧ (y + 1) % 100 ≠ 0) ∨ (y + 1) % 400 = 0) :=
    isLeapYear_iff (y + 1)
  unfold leapsUpTo
  by_cases c4 : (4 : Nat) ∣ y + 1 <;> by_cases c100 : (100 : Nat) ∣ y + 1 <;>
    by_cases c400 : (400 : Nat) ∣ y + 1 <;>
    rw [Nat.dvd_iff_mod_eq_zero] at c4 c100 c400 <;>
    simp [c4, c100, c400] at h4 h100 h400 ⊢ <;>
    by_cases hl : isLeapYear (y + 1) = true <;> simp [hl] <;>
    rw [hlf] at hl <;> omega

lemma daysBeforeMonth_succ (y m : Nat) (h1 : 1 ≤ m) (h2 : m ≤ 11) :
    daysBeforeMonth y (m + 1) = daysBeforeMonth y m + daysInMonth y m := by
  interval_cases m <;> cases hl : isLeapYear y <;>
    simp [daysBeforeMonth, daysInMonth, hl]

lemma toOrdinal_nextDay (d : CalDate) (h : validDate d) :
    toOrdinal (nextDay d) = toOrdinal d + 1 := by
  obtain ⟨hy, hm1, hm2, hd1, hd2⟩ := h
  unfold nextDay
  by_cases hlt : d.day < daysInMonth d.year d.month
  · simp only [hlt, if_true, toOrdinal]
    omega
  · rw [if_neg hlt]
    by_cases hm : d.month < 12
    · rw [if_pos hm]
      have hadd := daysBeforeMonth_succ d.year d.month hm1 (by omega)
      simp only [toOrdinal]
      omega
    · rw [if_neg hm]
      have hm12 : d.month = 12 := by omega
      have hdim : daysInMonth d.year 12 = 31 := rfl
      have hday : d.day = 31 := by rw [hm12] at hd2 hlt; omega
      have hls : leapsUpTo d.year =
          leapsUpTo (d.year - 1) + (if isLeapYear d.year then 1 else 0) := by
        obtain ⟨k, hk⟩ : ∃ k, d.year = k + 1 := ⟨d.year - 1, by omega⟩
        rw [hk]
        simpa using leapsUpTo_succ k
      simp only [toOrdinal, hm12, hday]
      cases hl : isLeapYear d.year <;>
        simp [daysBeforeMonth, hl] at hls ⊢ <;> omega

lemma determineServiceType_cases (c : CellStyle) :
    determineServiceType c = "12H Jour" ∨ determineServiceType c = "12H Nuit" ∨
      determineServiceType c = "24H" := by
  unfold determineServiceType
  split_ifs <;> simp

lemma rowValuesJS_getD (r : Row) (i : Nat) :
    (rowValuesJS r).getD i "" = jsCoerce ((jsGetCell r (i + 1)).value) := by
  unfold rowValuesJS jsGetCell
  by_cases h : i < r.cells.length
  · rw [List.getD_eq_getElem?_getD, List.getElem?_map]
    simp [List.getElem?_eq_getElem h, List.getD_eq_getElem?_getD]
  · have h1 : r.cells.length ≤ i := by omega
    rw [List.getD_eq_getElem?_getD, List.getElem?_map]
    simp [List.getElem?_eq_none (by simpa using h1), List.getD_eq_getElem?_getD,
      List.getElem?_eq_none, emptyCell, jsCoerce]

lemma rowExtraData_eq_map (r : Row) :
    rowExtraData r = (r.cells.drop 3).map extraOfCell := by
  unfold rowExtraData
  apply List.ext_getElem
  · simp [rowValuesJS]
  · intro i h1 h2
    have hcell : 3 + i < r.cells.length := by
      simp at h2; omega
    simp only [List.getElem_map, List.getElem_range, List.getElem_drop]
    have hv : ((rowValuesJS r).drop 3).getD i "" =
        jsCoerce (r.cells[3 + i]).value := by
      rw [List.getD_eq_getElem?_getD, List.getElem?_drop,
        List.getElem?_eq_getElem (by simpa [rowValuesJS] using hcell)]
      simp [rowValuesJS]
    have hidx : i + 4 - 1 = 3 + i := by omega
    have hg : jsGetCell r (i + 4) = r.cells[3 + i] := by
      unfold jsGetCell
      rw [hidx, List.getD_eq_getElem?_getD, List.getElem?_eq_getElem hcell]
      simp
    simp only [hv, hg, extraOfCell]

lemma rowToEvent_eq (r : Row) :
    rowToEvent r = if qualifiesRow r then some (mkEventOfRow r) else none := by
  have h1 : (rowValuesJS r).getD 1 "" = jsCoerce ((jsGetCell r 2).value) := by
    simpa using rowValuesJS_getD r 1
  have h2 : (rowValuesJS r).getD 2 "" = jsCoerce ((jsGetCell r 3).value) := by
    simpa using rowValuesJS_getD r 2
  unfold rowToEvent mkEventOfRow
  simp only [h1, h2]
  by_cases hq : qualifiesRow r = true
  · have hq2 : jsCoerce ((jsGetCell r 2).value) ≠ "" ∧
        jsCoerce ((jsGetCell r 3).value) ≠ "" := by
      simpa [qualifiesRow] using hq
    rw [if_pos hq2, if_pos hq]
  · have hq2 : ¬ (jsCoerce ((jsGetCell r 2).value) ≠ "" ∧
        jsCoerce ((jsGetCell r 3).value) ≠ "") := by
      simpa [qualifiesRow] using hq
    rw [if_neg hq2, if_neg hq]

lemma parseSheet_eq (rows : List Row) :
    parseSheet rows = (rows.filter qualifiesRow).map mkEventOfRow := by
  unfold parseSheet
  induction rows with
  | nil => rfl
  | cons r rs ih =>
      rw [List.filterMap_cons, rowToEvent_eq, List.filter_cons]
      by_cases h : qualifiesRow r = true
      · simp [h, ih]
      · simp [h, ih]

lemma lexLeChars_total : ∀ as bs : List Char,
    (lexLeChars as bs || lexLeChars bs as) = true := by
  intro as
  induction as with
  | nil => intro bs; simp [lexLeChars]
  | cons a as ih =>
      intro bs
      cases bs with
      | nil => simp [lexLeChars]
      | cons b bs =>
          simp only [lexLeChars]
          by_cases h1 : a.toNat < b.toNat
          · simp [h1]
          · by_cases h2 : b.toNat < a.toNat
            · simp [h1, h2]
            · simp [h1, h2, ih bs]

lemma lexLeChars_trans : ∀ as bs cs : List Char,
    lexLeChars as bs = true → lexLeChars bs cs = true →
      lexLeChars as cs = true := by
  intro as
  induction as with
  | nil => intro bs cs _ _; simp [lexLeChars]
  | cons a as ih =>
      intro bs cs hab hbc
      cases bs with
      | nil => simp [lexLeChars] at hab
      | cons b bs =>
          cases cs with
          | nil => simp [lexLeChars] at hbc
          | cons c cs =>
              simp only [lexLeChars] at hab hbc ⊢
              by_cases h1 : a.toNat < b.toNat <;>
                by_cases h2 : b.toNat < c.toNat <;>
                by_cases h3 : a.toNat < c.toNat <;>
                simp [h1, h2, h3] at hab hbc ⊢ <;>
                first
                | omega
                | exact ⟨by omega, ih bs cs hab.2 hbc.2⟩

lemma lexLe_total (a b : String) : (lexLe a b || lexLe b a) = true :=
  lexLeChars_total a.data b.data

lemma lexLe_trans (a b c : String) (h1 : lexLe a b = true)
    (h2 : lexLe b c = true) : lexLe a c = true :=
  lexLeChars_trans a.data b.data c.data h1 h2

/-! ## Claim theorems -/

/-- C1: for every cell style attribute pair, classification is total and
first-match-wins: the colour sentinel FF00B0F0 gives 12H Jour regardless
of the theme, otherwise theme 9 gives 12H Nuit, otherwise (including both
fields absent) 24H; the result is always one of the three labels. -/
theorem shiftClassifier_firstMatch_total (color : Option String)
    (theme : Option Int) :
    (color = some "FF00B0F0" → determineServiceType ⟨color, theme⟩ = "12H Jour") ∧
    (color ≠ some "FF00B0F0" → theme = some 9 →
      determineServiceType ⟨color, theme⟩ = "12H Nuit") ∧
    (color ≠ some "FF00B0F0" → theme ≠ some 9 →
      determineServiceType ⟨color, theme⟩ = "24H") ∧
    determineServiceType ⟨none, none⟩ = "24H" ∧
    (determineServiceType ⟨color, theme⟩ = "12H Jour" ∨
      determineServiceType ⟨color, theme⟩ = "12H Nuit" ∨
      determineServiceType ⟨color, theme⟩ = "24H") := by
  refine ⟨?_, ?_, ?_, rfl, determineServiceType_cases _⟩
  · intro hc
    simp [determineServiceType, hc]
  · intro hc ht
    simp [determineServiceType, hc, ht]
  · intro hc ht
    simp [determineServiceType, hc, ht]

/-- Witness for C1 at three concrete style inputs. -/
theorem shiftClassifier_firstMatch_total_witness :
    determineServiceType ⟨some "FF00B0F0", some 9⟩ = "12H Jour" ∧
    determineServiceType ⟨some "FFFF0000", some 9⟩ = "12H Nuit" ∧
    determineServiceType ⟨none, none⟩ = "24H" :=
  ⟨(shiftClassifier_firstMatch_total (some "FF00B0F0") (some 9)).1 rfl,
   (shiftClassifier_firstMatch_total (some "FFFF0000") (some 9)).2.1
     (by decide) rfl,
   (shiftClassifier_firstMatch_total none none).2.2.2.1⟩

/-- C2: for every valid calendar date given to the resolver, 12H Jour runs
07:30-19:30 the same day, 12H Nuit 19:30 to 07:30 of the day after, and
24H 07:30 to 07:30 of the day after (day-after stated via the ordinal day
number, independently of the rollover code). -/
theorem scheduleWindows_by_shiftType (d : CalDate) (h : validDate d) :
    getEventTimes (DateInput.date d) "12H Jour" =
      .ok ⟨⟨d, 7, 30⟩, ⟨d, 19, 30⟩⟩ ∧
    (∃ d2, getEventTimes (DateInput.date d) "12H Nuit" =
      .ok ⟨⟨d, 19, 30⟩, ⟨d2, 7, 30⟩⟩ ∧ toOrdinal d2 = toOrdinal d + 1) ∧
    (∃ d2, getEventTimes (DateInput.date d) "24H" =
      .ok ⟨⟨d, 7, 30⟩, ⟨d2, 7, 30⟩⟩ ∧ toOrdinal d2 = toOrdinal d + 1) :=
  ⟨rfl, ⟨nextDay d, rfl, toOrdinal_nextDay d h⟩,
   ⟨nextDay d, rfl, toOrdinal_nextDay d h⟩⟩

/-- Witness for C2 at the leap-day date 2024-02-29. -/
theorem scheduleWindows_by_shiftType_witness :
    validDate ⟨2024, 2, 29⟩ ∧
    (∃ d2, getEventTimes (DateInput.date ⟨2024, 2, 29⟩) "24H" =
      .ok ⟨⟨⟨2024, 2, 29⟩, 7, 30⟩, ⟨d2, 7, 30⟩⟩ ∧
        toOrdinal d2 = toOrdinal ⟨2024, 2, 29⟩ + 1) :=
  ⟨by decide, (scheduleWindows_by_shiftType ⟨2024, 2, 29⟩ (by decide)).2.2⟩

/-- C3: resolving the French-formatted string 15 mars 2025 succeeds through
the locale round trip and yields the three claimed windows. -/
theorem resolve_french_date_string :
    getEventTimes (DateInput.str "15 mars 2025") "12H Jour" =
      .ok ⟨⟨⟨2025, 3, 15⟩, 7, 30⟩, ⟨⟨2025, 3, 15⟩, 19, 30⟩⟩ ∧
    getEventTimes (DateInput.str "15 mars 2025") "12H Nuit" =
      .ok ⟨⟨⟨2025, 3, 15⟩, 19, 30⟩, ⟨⟨2025, 3, 16⟩, 7, 30⟩⟩ ∧
    getEventTimes (DateInput.str "15 mars 2025") "24H" =
      .ok ⟨⟨⟨2025, 3, 15⟩, 7, 30⟩, ⟨⟨2025, 3, 16⟩, 7, 30⟩⟩ :=
  ⟨rfl, rfl, rfl⟩

/-- C4: on string dates the resolver fails with the invalid-date error
exactly when the locale decomposition fails (in particular on
"not a date"), fails with the unrecognized-service error exactly when the
decomposition succeeds but the shift type is none of the three known
labels (in particular "BOGUS"), and no other failure exists. -/
theorem resolver_error_conditions (s t : String) :
    (getEventTimes (DateInput.str s) t = .error ScheduleError.invalidDate ↔
      frenchLocaleDecompose s = none) ∧
    (getEventTimes (DateInput.str s) t =
        .error ScheduleError.unrecognizedService ↔
      (frenchLocaleDecompose s ≠ none ∧ t ≠ "12H Jour" ∧ t ≠ "12H Nuit" ∧
        t ≠ "24H")) ∧
    getEventTimes (DateInput.str "not a date") "24H" =
      .error ScheduleError.invalidDate ∧
    getEventTimes (DateInput.str "15 mars 2025") "BOGUS" =
      .error ScheduleError.unrecognizedService ∧
    (∀ e, getEventTimes (DateInput.str s) t = .error e →
      e = ScheduleError.invalidDate ∨ e = ScheduleError.unrecognizedService) := by
  refine ⟨?_, ?_, rfl, rfl, ?_⟩
  · cases hd : frenchLocaleDecompose s with
    | none => simp [getEventTimes, hd]
    | some d =>
        simp only [getEventTimes, hd]
        split_ifs <;> simp
  · cases hd : frenchLocaleDecompose s with
    | none => simp [getEventTimes, hd]
    | some d =>
        simp only [getEventTimes, hd]
        split_ifs with h1 h2 h3 <;> simp_all
  · intro e he
    cases e
    · exact Or.inl rfl
    · exact Or.inr rfl

/-- Witness for C4 at the two concrete inputs of the claim. -/
theorem resolver_error_conditions_witness :
    getEventTimes (DateInput.str "not a date") "24H" =
      .error ScheduleError.invalidDate ∧
    (getEventTimes (DateInput.str "15 mars 2025") "BOGUS" =
        .error ScheduleError.unrecognizedService ↔
      (frenchLocaleDecompose "15 mars 2025" ≠ none ∧ ("BOGUS" : String) ≠ "12H Jour" ∧
        ("BOGUS" : String) ≠ "12H Nuit" ∧ ("BOGUS" : String) ≠ "24H")) :=
  ⟨(resolver_error_conditions "not a date" "24H").2.2.1,
   (resolver_error_conditions "15 mars 2025" "BOGUS").2.1⟩

lemma jsGetCell_coerce_empty (r : Row) (j : Nat)
    (hall : ∀ c ∈ r.cells, jsCoerce c.value = "") :
    jsCoerce ((jsGetCell r j).value) = "" := by
  unfold jsGetCell
  by_cases h : j - 1 < r.cells.length
  · rw [List.getD_eq_getElem?_getD, List.getElem?_eq_getElem h]
    exact hall _ (List.getElem_mem h)
  · rw [List.getD_eq_getElem?_getD, List.getElem?_eq_none (by omega)]
    rfl

/-- Counterexample to C5: on a row whose four columns hold X, Y, Z, W, the
extractor takes Y (column 2) as the date, not X (column 1) as claimed. -/
theorem rowExtractor_column_positions_cex :
    jsCoerce ((jsGetCell sampleRowXYZW 1).value) = "X" ∧
    jsCoerce ((jsGetCell sampleRowXYZW 2).value) = "Y" ∧
    (parseSheet [sampleRowXYZW]).map (fun e => e.date) = ["Y"] ∧
    (parseSheet [sampleRowXYZW]).map (fun e => e.date) ≠ ["X"] := by
  decide

/-- C5 as amended: every produced RawEvent takes its date from column 2,
its team from column 3, and its extra cells, in order, from columns 4
onward (column 1 is the one skipped). -/
theorem rowExtractor_column_positions (r : Row) (e : EventData)
    (h : rowToEvent r = some e) :
    e.date = jsCoerce ((jsGetCell r 2).value) ∧
    e.equipe = jsCoerce ((jsGetCell r 3).value) ∧
    e.extraData = (r.cells.drop 3).map extraOfCell := by
  rw [rowToEvent_eq] at h
  by_cases hq : qualifiesRow r = true
  · rw [if_pos hq] at h
    have he : e = mkEventOfRow r := by
      injection h with h2
      exact h2.symm
    subst he
    exact ⟨rfl, rfl, rowExtraData_eq_map r⟩
  · rw [if_neg hq] at h
    cases h

/-- Witness for the amended C5 at the sample row. -/
theorem rowExtractor_column_positions_witness :
    (⟨"Y", "Z", [⟨"W", none, none, "24H"⟩]⟩ : EventData).date =
      jsCoerce ((jsGetCell sampleRowXYZW 2).value) :=
  (rowExtractor_column_positions sampleRowXYZW
    ⟨"Y", "Z", [⟨"W", none, none, "24H"⟩]⟩ (by decide)).1

/-- Counterexample to C6: a row whose date column holds the number 0 has a
non-empty display string, so under the claimed coercion it should qualify,
yet the extractor produces no event for it. -/
theorem rowExtractor_qualification_cex :
    specCoerce (jsGetCell sampleRowZeroDate 2).value = "0" ∧
    specCoerce (jsGetCell sampleRowZeroDate 3).value = "A" ∧
    parseSheet [sampleRowZeroDate] = [] := by
  decide

/-- C6 as amended: a row yields a RawEvent exactly when its date and team
values are truthy (non-empty after the code coercion, under which falsy
present values such as the number 0 also become empty); qualifying rows
yield exactly one event each, in order, and rows whose values all coerce
to empty never appear. -/
theorem rowExtractor_qualification (rows : List Row) :
    (∀ r ∈ rows, ((rowToEvent r).isSome = true ↔
      (jsCoerce ((jsGetCell r 2).value) ≠ "" ∧
        jsCoerce ((jsGetCell r 3).value) ≠ ""))) ∧
    parseSheet rows = (rows.filter qualifiesRow).map mkEventOfRow ∧
    (∀ r ∈ rows, (∀ c ∈ r.cells, jsCoerce c.value = "") →
      rowToEvent r = none) := by
  refine ⟨?_, parseSheet_eq rows, ?_⟩
  · intro r _
    have hiff : qualifiesRow r = true ↔
        (jsCoerce ((jsGetCell r 2).value) ≠ "" ∧
          jsCoerce ((jsGetCell r 3).value) ≠ "") := by
      simp [qualifiesRow]
    rw [rowToEvent_eq]
    rcases hq : qualifiesRow r <;> simp [hq] at hiff ⊢ <;> tauto
  · intro r _ hall
    rw [rowToEvent_eq, if_neg]
    intro hq
    have h2 := jsGetCell_coerce_empty r 2 hall
    simp [qualifiesRow, h2] at hq

/-- Witness for the amended C6 at two sample rows and the empty row. -/
theorem rowExtractor_qualification_witness :
    parseSheet [sampleRowXYZW, sampleRowZeroDate] =
      (([sampleRowXYZW, sampleRowZeroDate].filter qualifiesRow).map
        mkEventOfRow) ∧
    rowToEvent (⟨[]⟩ : Row) = none :=
  ⟨(rowExtractor_qualification [sampleRowXYZW, sampleRowZeroDate]).2.1,
   (rowExtractor_qualification [(⟨[]⟩ : Row)]).2.2 ⟨[]⟩ (by decide) (by decide)⟩

/-- Counterexample to C7: with the non-empty selected name made of one
space, an event whose extra cell holds the empty string matches the
claimed normalized-equality condition, yet the filter drops it (the code
additionally requires the cell value to be truthy). -/
theorem eventFilter_exact_match_cex :
    (" " : String) ≠ "" ∧
    normName "" = normName " " ∧
    (∃ c ∈ sampleEmptyCellEvent.extraData,
      normName c.value = normName " ") ∧
    filterEvents [sampleEmptyCellEvent] (some " ") = [] := by
  decide

/-- C7 as amended: an unset or empty selected name yields the empty
sequence, and otherwise an event passes the filter exactly when some extra
cell has a non-empty value equal to the selected name under case
normalization and trimming. -/
theorem eventFilter_exact_match (evs : List EventData) (n : Option String) :
    (n = none → filterEvents evs n = []) ∧
    (n = some "" → filterEvents evs n = []) ∧
    (∀ s, n = some s → s ≠ "" → ∀ e,
      (e ∈ filterEvents evs n ↔ e ∈ evs ∧
        ∃ c ∈ e.extraData, c.value ≠ "" ∧ normName c.value = normName s)) := by
  refine ⟨?_, ?_, ?_⟩
  · rintro rfl
    rfl
  · rintro rfl
    simp [filterEvents]
  · rintro s rfl hs e
    simp only [filterEvents, if_pos hs, List.mem_filter, filterMatch,
      List.any_eq_true, Bool.and_eq_true, decide_eq_true_eq]

/-- Witness for the amended C7 at a singleton event list. -/
theorem eventFilter_exact_match_witness :
    filterEvents [sampleEmptyCellEvent] none = [] ∧
    (sampleEmptyCellEvent ∈ filterEvents [sampleEmptyCellEvent] (some "d") ↔
      sampleEmptyCellEvent ∈ [sampleEmptyCellEvent] ∧
      ∃ c ∈ sampleEmptyCellEvent.extraData, c.value ≠ "" ∧
        normName c.value = normName "d") :=
  ⟨(eventFilter_exact_match [sampleEmptyCellEvent] none).1 rfl,
   (eventFilter_exact_match [sampleEmptyCellEvent] (some "d")).2.2 "d" rfl
     (by decide) sampleEmptyCellEvent⟩

lemma columnNames_mem (ws : Worksheet) (j : Nat) (s : String) :
    s ∈ columnNames ws j ↔ ∃ c ∈ columnCells ws j, ∃ v, c.value = some v ∧
      jsTruthyVal v = true ∧ jsToString v = s ∧
      determineServiceType ⟨jsOrNullStr c.color, jsOrNullInt c.theme⟩ = "24H" ∧
      hasDigit s = false ∧ jsTrim s ≠ "" := by
  unfold columnNames
  rw [List.mem_filterMap]
  constructor
  · rintro ⟨c, hc, hf⟩
    refine ⟨c, hc, ?_⟩
    split at hf
    · rename_i v hv
      split_ifs at hf with ht
      simp only [] at hf
      split_ifs at hf with hg
      · injection hf with hf
        subst hf
        simp only [Bool.and_eq_true, decide_eq_true_eq, Bool.not_eq_true',
          decide_eq_false_iff_not] at hg
        exact ⟨v, hv, ht, rfl, hg.1.1, by simpa using hg.1.2, hg.2⟩
    · rename_i hv
      cases hf
  · rintro ⟨c, hc, v, hv, ht, hs, h24, hd, htr⟩
    refine ⟨c, hc, ?_⟩
    rw [hv]
    subst hs
    simp only [if_pos ht]
    simp [h24, hd, htr]

lemma collectNames_mem (ws : Worksheet) (s : String) :
    s ∈ collectNames ws ↔
      ∃ j ∈ (List.range (maxColCount ws - 3)).map (fun i => i + 4),
        headerOk (jsGetCell (headerRowOf ws) j).value = true ∧
        s ∈ columnNames ws j := by
  unfold collectNames
  rw [List.mem_flatMap]
  constructor
  · rintro ⟨j, hj, hs⟩
    by_cases h : headerOk (jsGetCell (headerRowOf ws) j).value = true
    · exact ⟨j, hj, h, by rwa [if_pos h] at hs⟩
    · rw [if_neg h] at hs
      cases hs
  · rintro ⟨j, hj, h, hs⟩
    exact ⟨j, hj, by rwa [if_pos h]⟩

/-- C8: the name index is deduplicated and sorted by the (abstract total
transitive) locale comparator, and a string belongs to it exactly when some
cell of a column beyond the fixed offset, whose header is present and not
DESIDERATA, holds it with a truthy value, a style classifying as 24H, no
digit character, and a non-empty trimmed form. -/
theorem nameIndexer_membership_sorted (le : String → String → Bool)
    (htrans : ∀ a b c, le a b = true → le b c = true → le a c = true)
    (htotal : ∀ a b, (le a b || le b a) = true) (ws : Worksheet) :
    (extractUniqueNames le ws).Nodup ∧
    (extractUniqueNames le ws).Pairwise (fun a b => le a b = true) ∧
    (∀ s, s ∈ extractUniqueNames le ws ↔
      ∃ j ∈ (List.range (maxColCount ws - 3)).map (fun i => i + 4),
        headerOk (jsGetCell (headerRowOf ws) j).value = true ∧
        ∃ c ∈ columnCells ws j, ∃ v, c.value = some v ∧
          jsTruthyVal v = true ∧ jsToString v = s ∧
          determineServiceType ⟨jsOrNullStr c.color, jsOrNullInt c.theme⟩ =
            "24H" ∧
          hasDigit s = false ∧ jsTrim s ≠ "") := by
  refine ⟨?_, ?_, ?_⟩
  · exact ((List.mergeSort_perm _ le).nodup_iff).mpr (List.nodup_dedup _)
  · exact List.sorted_mergeSort htrans htotal _
  · intro s
    rw [extractUniqueNames, List.mem_mergeSort, List.mem_dedup,
      collectNames_mem]
    simp_rw [columnNames_mem]

/-- Witness for C8 with the code-point comparator on the sample sheet. -/
theorem nameIndexer_membership_sorted_witness :
    (extractUniqueNames lexLe sampleSheet).Nodup ∧
    "Dupont" ∈ extractUniqueNames lexLe sampleSheet := by
  have h := nameIndexer_membership_sorted lexLe lexLe_trans lexLe_total
    sampleSheet
  refine ⟨h.1, (h.2.2 "Dupont").mpr ?_⟩
  exact ⟨4, by decide, by decide,
    ⟨some (CellValue.vStr "Dupont"), none, none⟩, by decide,
    CellValue.vStr "Dupont", rfl, rfl, rfl, rfl, rfl, by decide⟩

lemma getService_some (e : EventData) (n : String) :
    getServiceTypeForSelectedName e (some n) =
      (e.extraData.find? (fun cell =>
        (normName cell.value = normName n : Bool))).map
        (fun c => c.serviceType) := rfl

/-- C9: shift-type resolution returns the serviceType of the first extra
cell, in cell order, whose value matches the selected name under
normalization, and none when no cell matches (or when no name is set). -/
theorem resolveShiftType_first_match (e : EventData) (n : String) :
    (getServiceTypeForSelectedName e (some n) = none ↔
      ∀ c ∈ e.extraData, normName c.value ≠ normName n) ∧
    (∀ t, getServiceTypeForSelectedName e (some n) = some t ↔
      ∃ l1 c l2, e.extraData = l1 ++ c :: l2 ∧
        normName c.value = normName n ∧ t = c.serviceType ∧
        ∀ c2 ∈ l1, normName c2.value ≠ normName n) ∧
    getServiceTypeForSelectedName e none = none := by
  refine ⟨?_, ?_, ?_⟩
  · rw [getService_some]
    simp [List.find?_eq_none]
  · intro t
    rw [getService_some]
    constructor
    · intro h
      obtain ⟨c, hc, ht⟩ := Option.map_eq_some'.mp h
      obtain ⟨hp, l1, l2, heq, hpre⟩ := List.find?_eq_some.mp hc
      exact ⟨l1, c, l2, heq, by simpa using hp, ht.symm,
        fun c2 hc2 => by simpa using hpre c2 hc2⟩
    · rintro ⟨l1, c, l2, heq, hc, ht, hpre⟩
      have hfind : e.extraData.find? (fun cell =>
          (normName cell.value = normName n : Bool)) = some c :=
        List.find?_eq_some.mpr ⟨by simpa using hc, l1, l2, heq,
          fun a ha => by simpa using hpre a ha⟩
      rw [hfind, ht]
      rfl
  · simp [getServiceTypeForSelectedName, List.find?_eq_none]

/-- Witness for C9 at the sample event. -/
theorem resolveShiftType_first_match_witness :
    getServiceTypeForSelectedName sampleEmptyCellEvent none = none ∧
    (getServiceTypeForSelectedName sampleEmptyCellEvent (some "x") = none ↔
      ∀ c ∈ sampleEmptyCellEvent.extraData,
        normName c.value ≠ normName "x") :=
  ⟨(resolveShiftType_first_match sampleEmptyCellEvent "x").2.2,
   (resolveShiftType_first_match sampleEmptyCellEvent "x").1⟩

/-- C10: every event the filter keeps for a non-empty selected name
resolves to some shift type, that type is one of the three classifier
labels, and the Inconnu fallback of the calendar-generation step is never
taken on this path. -/
theorem filtered_events_have_shiftType (rows : List Row) (s : String)
    (hs : s ≠ "") (e : EventData)
    (he : e ∈ filterEvents (parseSheet rows) (some s)) :
    ∃ t, getServiceTypeForSelectedName e (some s) = some t ∧
      (t = "12H Jour" ∨ t = "12H Nuit" ∨ t = "24H") ∧
      enrichedServiceType e (some s) = t ∧ t ≠ "Inconnu" := by
  simp only [filterEvents, if_pos hs] at he
  rw [List.mem_filter] at he
  obtain ⟨he1, he2⟩ := he
  simp only [filterMatch, List.any_eq_true, Bool.and_eq_true,
    decide_eq_true_eq] at he2
  obtain ⟨cm, hcm, _, hnorm⟩ := he2
  have hsome : (e.extraData.find? (fun cell =>
      (normName cell.value = normName s : Bool))).isSome = true :=
    List.find?_isSome.mpr ⟨cm, hcm, by simpa using hnorm⟩
  obtain ⟨c0, hfind⟩ := Option.isSome_iff_exists.mp hsome
  have hc0mem : c0 ∈ e.extraData := List.mem_of_find?_eq_some hfind
  have hshape : ∃ cell, c0 = extraOfCell cell := by
    rw [parseSheet_eq, List.mem_map] at he1
    obtain ⟨r, _, hr⟩ := he1
    have hx : e.extraData = (r.cells.drop 3).map extraOfCell := by
      rw [← hr, mkEventOfRow, rowExtraData_eq_map]
    rw [hx, List.mem_map] at hc0mem
    obtain ⟨cell, _, hcell⟩ := hc0mem
    exact ⟨cell, hcell.symm⟩
  obtain ⟨cell, hcell⟩ := hshape
  have h3 : c0.serviceType = "12H Jour" ∨ c0.serviceType = "12H Nuit" ∨
      c0.serviceType = "24H" := by
    rw [hcell]
    exact determineServiceType_cases _
  refine ⟨c0.serviceType, ?_, h3, ?_, ?_⟩
  · rw [getService_some, hfind]
    rfl
  · rw [enrichedServiceType, getService_some, hfind]
    rcases h3 with h | h | h <;> simp [h]
  · rcases h3 with h | h | h <;> simp [h]

/-- Witness for C10 on the sample rows with the name Dupont. -/
theorem filtered_events_have_shiftType_witness :
    ("Dupont" : String) ≠ "" ∧
    (∃ t, getServiceTypeForSelectedName
        ⟨"10 avril 2025", "EQ1", [⟨"Dupont", none, none, "24H"⟩]⟩
        (some "Dupont") = some t ∧
      (t = "12H Jour" ∨ t = "12H Nuit" ∨ t = "24H") ∧
      enrichedServiceType
        ⟨"10 avril 2025", "EQ1", [⟨"Dupont", none, none, "24H"⟩]⟩
        (some "Dupont") = t ∧ t ≠ "Inconnu") :=
  ⟨by decide, filtered_events_have_shiftType sampleRows "Dupont" (by decide)
    ⟨"10 avril 2025", "EQ1", [⟨"Dupont", none, none, "24H"⟩]⟩ (by decide)⟩

end AgendaSPV
